import Mathlib

/-!
Shallow embedding of `train_models.py`, the offline training and promotion
pipeline of DerivSmartBotDesktop: dataset preparation (regime and edge),
evaluation and composite scoring, the promotion gate, and the
archive-then-publish step, each translated from the Python source.
Numeric values are modelled as exact rationals; the scikit-learn calls
(`train_test_split`, `LogisticRegression.fit`, `accuracy_score`) are external
collaborators and appear as oracle parameters, with the concrete arguments the
source passes to them (test size, random seed, stratification) made explicit.
The filesystem is a finite map from path to file content; `os.replace` is a
move that overwrites its destination.
-/

namespace TrainModels

/-- A scalar cell of the trade-record table: numeric, string, or missing (NaN). -/
inductive Cell where
  | num (q : ℚ)
  | str (s : String)
  | missing
deriving DecidableEq, Repr

/-- A row maps column names to cells; a column absent from the row reads as missing. -/
abbrev Row := List (String × Cell)

/-- Cell lookup `df.loc[row, col]`: look the column up in the row, missing if absent. -/
def getCell (r : Row) (c : String) : Cell :=
  match r.find? (fun e => e.1 == c) with
  | some e => e.2
  | none => Cell.missing

/-- The in-memory table produced by the loader: a header (column list) and rows. -/
structure DataFrame where
  columns : List String
  rows : List Row
deriving Repr

/-- Column-name constants from the CONFIG section of the source. -/
def COL_STRATEGY : String := "Strategy"

def COL_PROFIT : String := "Profit"

def COL_REGIME : String := "Regime"

/-- The fixed metadata column set `META_COLUMNS`, never treated as model input. -/
def META_COLUMNS : List String :=
  ["Time", "Symbol", "Strategy", "Profit", "Regime", "Stake", "Confidence", "Direction"]

/-- Module constant `MIN_SAMPLES_PER_STRATEGY = 50` used by `prepare_edge_data`. -/
def MIN_SAMPLES_PER_STRATEGY : ℕ := 50

/-- Module constant `MIN_TOTAL_SAMPLES = 200`, the default minimum total sample count for regime evaluation. -/
def MIN_TOTAL_SAMPLES : ℕ := 200

/-- String rendering of a cell, pandas `astype(str)` (NaN prints as "nan"). -/
def cellToStr : Cell → String
  | Cell.num q => toString q
  | Cell.str s => s
  | Cell.missing => "nan"

/-- A column has numeric dtype when every cell is numeric or missing
(pandas stores NaN in float columns, so missing values keep a column numeric). -/
def colIsNumeric (df : DataFrame) (c : String) : Bool :=
  df.rows.all (fun r =>
    match getCell r c with
    | Cell.num _ => true
    | Cell.missing => true
    | Cell.str _ => false)

/-- Feature inference `infer_feature_columns`: every non-metadata numeric column, in table order;
fatal when the list is empty. -/
def infer_feature_columns (df : DataFrame) : Except String (List String) :=
  let feature_cols := df.columns.filter
    (fun c => decide (c ∉ META_COLUMNS) && colIsNumeric df c)
  if feature_cols.isEmpty then
    Except.error "No numeric feature columns found."
  else
    Except.ok feature_cols

/-- Python truthiness test `profit > 0` after `dropna`: the binary win label. -/
def labelWin (r : Row) : ℕ :=
  match getCell r COL_PROFIT with
  | Cell.num q => if 0 < q then 1 else 0
  | _ => 0

/-- Python `str.strip()`: drop leading and trailing whitespace characters. -/
def pyStrip (s : String) : String :=
  String.mk (((s.data.dropWhile Char.isWhitespace).reverse.dropWhile Char.isWhitespace).reverse)

/-!  ## Dataset preparers  -/

/-- Regime preparation `prepare_regime_data`: require the Regime column, drop rows whose regime
cell is NaN, then drop rows whose regime renders to an empty string after
stripping; fatal when nothing remains. `X` is the per-row list of feature
cells (missing values pass through as NaN under `.astype(float)`), `y` the
parallel regime strings. -/
def prepare_regime_data (df : DataFrame) (feature_cols : List String) :
    Except String (List (List Cell) × List String) :=
  if COL_REGIME ∈ df.columns then
    let reg1 := df.rows.filter (fun r => !(getCell r COL_REGIME == Cell.missing))
    let reg2 := reg1.filter (fun r => !(pyStrip (cellToStr (getCell r COL_REGIME)) == ""))
    if reg2.isEmpty then
      Except.error "No rows with non-empty Regime label for training."
    else
      Except.ok (reg2.map (fun r => feature_cols.map (fun c => getCell r c)),
                 reg2.map (fun r => cellToStr (getCell r COL_REGIME)))
  else
    Except.error "Regime column not found in logs."

/-- Row validity for edge preparation: `dropna(subset=[Strategy, Profit])`
followed by `dropna` on each feature column. -/
def edgeRowOk (feature_cols : List String) (r : Row) : Bool :=
  !(getCell r COL_STRATEGY == Cell.missing)
    && !(getCell r COL_PROFIT == Cell.missing)
    && feature_cols.all (fun c => !(getCell r c == Cell.missing))

/-- The group key `df.groupby(Strategy)` partitions a row under. -/
def strategyKey (r : Row) : String := cellToStr (getCell r COL_STRATEGY)

/-- The rows of one strategy's partition. -/
def groupRows (rows : List Row) (s : String) : List Row :=
  rows.filter (fun r => strategyKey r == s)

/-- Code-point comparison of strings, Python's `<=` used by `groupby` key sorting. -/
def strLe (a b : String) : Bool :=
  decide (a.data.map Char.toNat ≤ b.data.map Char.toNat)

/-- The distinct strategy keys in the sorted order `pandas.groupby` yields. -/
def strategyKeys (rows : List Row) : List String :=
  ((rows.map strategyKey).eraseDups).insertionSort (fun a b => strLe a b)

/-- One strategy's prepared data: feature matrix and 0/1 win-label vector. -/
abbrev EdgeData := List (List Cell) × List ℕ

/-- The mapping `dict[strategy] -> (X, y)` built by `prepare_edge_data`. -/
abbrev PerStrategy := List (String × EdgeData)

/-- Edge preparation `prepare_edge_data`: require Strategy and Profit columns, drop rows missing
either or any feature value (fatal when nothing remains), label wins by
`Profit > 0`, partition by strategy, and keep only partitions with at least
`MIN_SAMPLES_PER_STRATEGY` rows — the module constant, not the CLI override.
An empty result is returned as an empty mapping, not an error. -/
def prepare_edge_data (df : DataFrame) (feature_cols : List String) :
    Except String PerStrategy :=
  if COL_STRATEGY ∈ df.columns then
    if COL_PROFIT ∈ df.columns then
      let rows := df.rows.filter (edgeRowOk feature_cols)
      if rows.isEmpty then
        Except.error "No rows with complete Strategy/Profit/features for edge training."
      else
        Except.ok ((strategyKeys rows).filterMap (fun s =>
          let g := groupRows rows s
          if g.length < MIN_SAMPLES_PER_STRATEGY then none
          else some (s, (g.map (fun r => feature_cols.map (fun c => getCell r c)),
                         g.map labelWin))))
    else Except.error "Profit column not found in logs."
  else Except.error "Strategy column not found in logs."

/-!  ## Evaluators

scikit-learn's `train_test_split` + `LogisticRegression.fit` + `accuracy_score`
pipeline is an external collaborator; it appears as an oracle taking the data
and the exact arguments the source passes: test size, `random_state`, and
whether stratification on the labels is requested. -/

/-- Oracle for the regime held-out pipeline: `(X, y, test_size, random_state,
stratified) ↦ accuracy`. -/
abbrev RegimeOracle := List (List Cell) → List String → ℚ → ℕ → Bool → ℚ

/-- Oracle for one strategy's held-out pipeline. -/
abbrev EdgeOracle := List (List Cell) → List ℕ → ℚ → ℕ → Bool → ℚ

/-- Regime evaluation `evaluate_regime_model`: fatal when the total sample count is below
`min_total`; otherwise an 80/20 split (`test_size=0.2`) with fixed seed
`random_state=42`, stratified on `y`, scored on the held-out 20%. -/
def evaluate_regime_model (sk : RegimeOracle) (X : List (List Cell))
    (y : List String) (min_total : ℕ) : Except String ℚ :=
  if X.length < min_total then
    Except.error "Not enough samples for regime model."
  else
    Except.ok (sk X y (2/10) 42 true)

/-- Edge evaluation `evaluate_edge_models`: `None` on an empty mapping; otherwise score each
partition meeting `min_samples` with the same fixed 80/20 stratified split,
`None` when no partition qualifies, else the sample-count-weighted average. -/
def evaluate_edge_models (sk : EdgeOracle) (per_strategy : PerStrategy)
    (min_samples : ℕ) : Option ℚ :=
  if per_strategy.isEmpty then none
  else
    let qual := per_strategy.filter (fun p => !(p.2.2.length < min_samples))
    let scores := qual.map (fun p => sk p.2.1 p.2.2 (2/10) 42 true)
    let weights := qual.map (fun p => (p.2.2.length : ℚ))
    if scores.isEmpty then none
    else
      some ((scores.zip weights).foldr (fun p acc => p.1 * p.2 + acc) 0
            / weights.foldr (· + ·) 0)

/-!  ## Promotion gate (`load_metrics`, `should_update_models`)  -/

/-- A parsed JSON metrics object: field name to numeric value
(the fields the gate reads are numeric). -/
abbrev MetricsDict := List (String × ℚ)

/-- Dict lookup `d.get(key, default)` on a parsed JSON object. -/
def dictGet (d : MetricsDict) (key : String) (default : ℚ) : ℚ :=
  match d.find? (fun e => e.1 == key) with
  | some e => e.2
  | none => default

/-- The promotion gate `should_update_models(new_score, old_metrics, force)`: `True` when forced or
when `old_metrics` is falsy (`None` or an empty dict), else strict comparison
of `new_score` against `old_metrics.get("composite_score", 0.0)`. -/
def should_update_models (new_score : ℚ) (old_metrics : Option MetricsDict)
    (force : Bool) : Bool :=
  if force then true
  else
    match old_metrics with
    | none => true
    | some d =>
      if d.isEmpty then true
      else decide (new_score > dictGet d "composite_score" 0)

/-- Composite scoring, line 380 of the source:
`composite = regime_acc if edge_acc is None else 0.6 * regime_acc + 0.4 * edge_acc`. -/
def compositeScore (regime_acc : ℚ) (edge_acc : Option ℚ) : ℚ :=
  match edge_acc with
  | none => regime_acc
  | some e => 6/10 * regime_acc + 4/10 * e

/-!  ## Trainers

The numeric optimisation inside `LogisticRegression.fit` is external; fitting
appears as an oracle. An edge fit can fail (fail to converge): in the source
there is no handler around `clf.fit` inside `train_edge_models`, so a raised
exception propagates, modelled by `Except`. -/

/-- Oracle for the full-data regime fit: `(X, y) ↦ (classes, coefficients,
intercepts)` as read back from the fitted classifier. -/
abbrev RegimeFit := List (List Cell) → List String → List String × List (List ℚ) × List ℚ

/-- Oracle for one full-data edge fit: `(X, y) ↦ (coef, intercept)`, or a
raised fitting error. -/
abbrev EdgeFit := List (List Cell) → List ℕ → Except String (List ℚ × ℚ)

/-- The regime artifact dict built by `train_regime_model`. -/
structure RegimeModel where
  model_type : String
  feature_names : List String
  classes : List String
  coefficients : List (List ℚ)
  intercepts : List ℚ
deriving DecidableEq, Repr

/-- The edge artifact dict built by `train_edge_models`. -/
structure EdgeModel where
  model_type : String
  feature_names : List String
  strategies : List (String × (List ℚ × ℚ))
deriving DecidableEq, Repr

/-- Regime training `train_regime_model`: one multinomial fit over all rows;
`feature_names` is left empty and filled by the caller, as in the source. -/
def train_regime_model (fit : RegimeFit) (X : List (List Cell)) (y : List String) :
    RegimeModel :=
  let r := fit X y
  { model_type := "multinomial_logistic_regression"
    feature_names := []
    classes := r.1
    coefficients := r.2.1
    intercepts := r.2.2 }

/-- Edge training `train_edge_models`: one independent binary fit per strategy,
accumulated into the strategies dict. The loop body has no exception handler:
the first fit that fails aborts the whole call. -/
def train_edge_models (fit : EdgeFit) (per_strategy : PerStrategy) :
    Except String EdgeModel := do
  let strategies ← per_strategy.foldlM
    (fun acc p => do
      let c ← fit p.2.1 p.2.2
      pure (acc ++ [(p.1, c)]))
    ([] : List (String × (List ℚ × ℚ)))
  pure { model_type := "per_strategy_logistic_regression"
         feature_names := []
         strategies := strategies }

/-!  ## Filesystem, metrics loading, archiver and publisher

The filesystem is a finite map from path to file content. File content is
compared as a whole, modelling byte-for-byte identity. A metrics file the
gate can read is a JSON object of numeric fields (`composite_score` is the
only field the gate consults; the timestamp string and a null edge accuracy
are not representable in the numeric dict and are never read back by this
program). `corrupt` stands for a file that exists but cannot be read or
parsed as JSON. -/

/-- Content of one file. -/
inductive FileData where
  | jsonDict (d : MetricsDict)
  | regimeArtifact (m : RegimeModel)
  | edgeArtifact (m : EdgeModel)
  | corrupt
deriving DecidableEq, Repr

/-- A filesystem: association list from path to content, first binding wins. -/
abbrev FS := List (String × FileData)

/-- Content at a path, if the file exists. -/
def fsGet (fs : FS) (p : String) : Option FileData :=
  (fs.find? (fun e => e.1 == p)).map (fun e => e.2)

/-- Delete every binding of a path. -/
def fsRemove (fs : FS) (p : String) : FS :=
  fs.filter (fun e => !(e.1 == p))

/-- Write (create or overwrite) a file. -/
def fsSet (fs : FS) (p : String) (c : FileData) : FS :=
  (p, c) :: fsRemove fs p

/-- Existence test `os.path.exists`. -/
def fsExists (fs : FS) (p : String) : Bool :=
  (fsGet fs p).isSome

/-- Move `os.replace(src, dst)`: the file disappears from `src` and its content
overwrites `dst`. -/
def os_replace (fs : FS) (src dst : String) : FS :=
  match fsGet fs src with
  | none => fs
  | some c => fsSet (fsRemove fs src) dst c

/-- Basename `os.path.basename`: the part of the path after the last slash. -/
def basename (p : String) : String :=
  String.mk ((p.data.reverse.takeWhile (fun ch => !(ch == '/'))).reverse)

/-- Path join `os.path.join` with a slash separator. -/
def joinPath (d name : String) : String := d ++ "/" ++ name

/-- The archive destination of a path: the archive directory, the shared run
timestamp, an underscore, and the original basename. -/
def archiveName (archive_dir ts p : String) : String :=
  joinPath archive_dir (ts ++ "_" ++ basename p)

/-- One iteration of the archiving loop: move the file into the archive if it
exists, otherwise skip it without error. -/
def archiveStep (archive_dir ts : String) (acc : FS) (path : String) : FS :=
  if fsExists acc path then os_replace acc path (archiveName archive_dir ts path)
  else acc

/-- Archiving `archive_existing_models`: move each existing path into the
archive directory under the shared timestamp prefix, in list order. -/
def archive_existing_models (paths : List String) (archive_dir ts : String)
    (fs : FS) : FS :=
  paths.foldl (archiveStep archive_dir ts) fs

/-- Metrics loading `load_metrics`: `None` when the file does not exist; any
failure to read or parse it as a JSON metrics object is caught and also
yields `None`. -/
def load_metrics (fs : FS) (path : String) : Option MetricsDict :=
  match fsGet fs path with
  | some (FileData.jsonDict d) => some d
  | some _ => none
  | none => none

/-- Path of the current regime artifact under the output directory. -/
def regimeModelPath (ml_dir : String) : String := joinPath ml_dir "regime-linear-v1.json"

/-- Path of the current edge artifact under the output directory. -/
def edgeModelPath (ml_dir : String) : String := joinPath ml_dir "edge-linear-v1.json"

/-- Path of the current metrics record under the output directory. -/
def metricsPath (ml_dir : String) : String := joinPath ml_dir "metrics.json"

/-- The publication tail of `main` after the gate approves: archive the three
current files (those that exist), then write the new regime artifact, the new
edge artifact, and the new metrics record. -/
def publishModels (ml_dir ts : String) (regimeA : RegimeModel) (edgeA : EdgeModel)
    (metrics : MetricsDict) (fs : FS) : FS :=
  let fs1 := archive_existing_models
    [regimeModelPath ml_dir, edgeModelPath ml_dir, metricsPath ml_dir]
    (joinPath ml_dir "archive") ts fs
  let fs2 := fsSet fs1 (regimeModelPath ml_dir) (FileData.regimeArtifact regimeA)
  let fs3 := fsSet fs2 (edgeModelPath ml_dir) (FileData.edgeArtifact edgeA)
  fsSet fs3 (metricsPath ml_dir) (FileData.jsonDict metrics)

/-!  ## The run (`main`)  -/

/-- Parsed command-line arguments of `main` (the log directory only feeds the
loader, which is outside this core: the loaded table is an input here). -/
structure Args where
  ml_dir : String
  force : Bool
  min_total : ℕ
  min_per_strategy : ℕ
deriving Repr

/-- The numeric metrics dict `main` builds and publishes (the fields the gate
can later read back). -/
def buildMetrics (regime_acc : ℚ) (edge_acc : Option ℚ) (comp : ℚ) (samples : ℕ) :
    MetricsDict :=
  [("regime_accuracy", regime_acc)]
    ++ (match edge_acc with
        | some e => [("edge_accuracy", e)]
        | none => [])
    ++ [("composite_score", comp), ("samples", (samples : ℚ))]

/-- The run `main` from the loaded table onward: infer features, prepare both
datasets, evaluate, gate, and on approval train on the full data and publish
with archival. A raised error leaves the filesystem as it was at that point
and is reported in the second component; `none` there is a normal exit, which
includes the rejected-promotion outcome. -/
def mainRun (args : Args) (ts : String) (df : DataFrame)
    (skR : RegimeOracle) (skE : EdgeOracle) (fitR : RegimeFit) (fitE : EdgeFit)
    (fs : FS) : FS × Option String :=
  match infer_feature_columns df with
  | Except.error e => (fs, some e)
  | Except.ok feature_cols =>
    match prepare_regime_data df feature_cols with
    | Except.error e => (fs, some e)
    | Except.ok (X_reg, y_reg) =>
      match prepare_edge_data df feature_cols with
      | Except.error e => (fs, some e)
      | Except.ok per_strategy =>
        match evaluate_regime_model skR X_reg y_reg args.min_total with
        | Except.error e => (fs, some e)
        | Except.ok regime_acc =>
          let edge_acc := evaluate_edge_models skE per_strategy args.min_per_strategy
          let comp := compositeScore regime_acc edge_acc
          let metrics := buildMetrics regime_acc edge_acc comp df.rows.length
          let existing := load_metrics fs (metricsPath args.ml_dir)
          if should_update_models comp existing args.force then
            let regime0 := train_regime_model fitR X_reg y_reg
            let regime_json := { regime0 with feature_names := feature_cols }
            match train_edge_models fitE per_strategy with
            | Except.error e => (fs, some e)
            | Except.ok edge0 =>
              let edge_json := { edge0 with feature_names := feature_cols }
              (publishModels args.ml_dir ts regime_json edge_json metrics fs, none)
          else
            (fs, none)

/-!  ## Concrete inputs used by counterexamples and witnesses  -/

/-- A table whose single row has a regime label but a missing feature value. -/
def dfMissingFeature : DataFrame :=
  { columns := ["Regime", "f"]
    rows := [[("Regime", Cell.str "TrendingUp"), ("f", Cell.missing)]] }

/-- One complete edge-training row for strategy A. -/
def edgeRowA : Row :=
  [("Strategy", Cell.str "A"), ("Profit", Cell.num 1), ("f", Cell.num 0)]

/-- A table with exactly 50 qualifying rows, all of strategy A. -/
def dfFifty : DataFrame :=
  { columns := ["Strategy", "Profit", "f"]
    rows := List.replicate 50 edgeRowA }

/-- The per-strategy mapping `prepare_edge_data` produces on `dfFifty`. -/
def psFifty : PerStrategy :=
  [("A", (List.replicate 50 [Cell.num 0], List.replicate 50 1))]

/-- A table with a single qualifying edge row, so no partition reaches 50. -/
def dfOneRow : DataFrame :=
  { columns := ["Strategy", "Profit", "f"]
    rows := [edgeRowA] }

/-- A table lacking the Regime column. -/
def dfNoRegime : DataFrame :=
  { columns := ["Strategy", "Profit", "f"]
    rows := [edgeRowA] }

/-- Row validity as the regime preparer applies it: the regime cell is present
and does not strip to the empty string. The conjunction of the two successive
filters inside `prepare_regime_data`; note it does not look at feature cells. -/
def regimeLabelOk (r : Row) : Bool :=
  !(getCell r COL_REGIME == Cell.missing)
    && !(pyStrip (cellToStr (getCell r COL_REGIME)) == "")

/-- A constant regime evaluation oracle for concrete instantiations. -/
def skR0 : RegimeOracle := fun _ _ _ _ _ => 0

/-- A constant edge evaluation oracle for concrete instantiations. -/
def skE0 : EdgeOracle := fun _ _ _ _ _ => 0

/-- A trivial regime fit oracle for concrete instantiations. -/
def fitR0 : RegimeFit := fun _ _ => ([], [], [])

/-- An always-converging edge fit oracle for concrete instantiations. -/
def fitE0 : EdgeFit := fun _ _ => Except.ok ([1], 0)

/-- A small regime artifact used to instantiate the publisher concretely. -/
def regimeW : RegimeModel :=
  { model_type := "multinomial_logistic_regression"
    feature_names := ["f"]
    classes := ["TrendingUp"]
    coefficients := [[1]]
    intercepts := [0] }

/-- A small edge artifact used to instantiate the publisher concretely. -/
def edgeW : EdgeModel :=
  { model_type := "per_strategy_logistic_regression"
    feature_names := ["f"]
    strategies := [("A", ([1], 0))] }

/-- A pre-promotion filesystem holding only a current metrics file. -/
def fsPre : FS :=
  [("Data/ML/metrics.json", FileData.jsonDict [("composite_score", 1/2)])]

/-- Per-strategy data for two 50-row strategies, A and B. -/
def psTwo : PerStrategy :=
  [("A", (List.replicate 50 [Cell.num 1], List.replicate 50 1)),
   ("B", (List.replicate 50 [Cell.num 2], List.replicate 50 0))]

/-- An edge fit oracle that fails to converge exactly on the data of strategy A
in `psTwo` and converges on everything else. -/
def fitFailA : EdgeFit := fun X _ =>
  if X = List.replicate 50 [Cell.num 1] then Except.error "fit failed to converge"
  else Except.ok ([1], 0)

end TrainModels

open TrainModels

/-- C1: the promotion gate approves iff the new composite score strictly exceeds
the prior one, or force is set, or no prior metrics record exists; a tie is
rejected. With a prior record containing composite score `S`, approval is
exactly `force || S' > S`; with no prior record, approval is unconditional;
at equality with force unset, the gate rejects. -/
theorem gate_strict_improvement (S S' : ℚ) (force : Bool) :
    should_update_models S' (some [("composite_score", S)]) force
        = (force || decide (S' > S))
    ∧ should_update_models S' none force = true
    ∧ should_update_models S (some [("composite_score", S)]) false = false := by
  refine ⟨?_, ?_, ?_⟩
  · cases force <;> simp [should_update_models, dictGet]
  · cases force <;> simp [should_update_models]
  · simp [should_update_models, dictGet]

/-- C2: the composite score equals the regime accuracy alone when the edge score
is absent, and otherwise equals 0.6 · regime + 0.4 · edge; in particular
regime 0.80 and edge 0.70 give exactly 0.76. -/
theorem composite_score_formula (r e : ℚ) :
    compositeScore r none = r
    ∧ compositeScore r (some e) = 6/10 * r + 4/10 * e
    ∧ compositeScore (80/100) (some (70/100)) = 76/100 := by
  refine ⟨rfl, rfl, by norm_num [compositeScore]⟩

theorem filter_filter_bool {α : Type} (p q : α → Bool) (l : List α) :
    (l.filter p).filter q = l.filter (fun a => p a && q a) := by
  induction l with
  | nil => rfl
  | cons a t ih =>
    by_cases hp : p a = true <;> by_cases hq : q a = true <;>
      simp [List.filter_cons, hp, hq, ih]

/-- C4 fails as stated: on a table whose only row carries regime label
TrendingUp but a missing feature value, the regime preparer keeps the row, so
the produced feature matrix is not restricted to rows whose feature values are
all present. -/
theorem regime_prep_missing_feature_kept_cex :
    prepare_regime_data dfMissingFeature ["f"]
        = Except.ok ([[Cell.missing]], ["TrendingUp"])
    ∧ ∀ X y, prepare_regime_data dfMissingFeature ["f"] = Except.ok (X, y) →
        ¬ ∀ row ∈ X, ∀ c ∈ row, c ≠ Cell.missing := by
  have h : prepare_regime_data dfMissingFeature ["f"]
      = Except.ok ([[Cell.missing]], ["TrendingUp"]) := by rfl
  refine ⟨h, ?_⟩
  intro X y hXy hall
  rw [h] at hXy
  injection hXy with h1
  injection h1 with hX hy
  subst hX
  exact hall [Cell.missing] (by simp) Cell.missing (by simp) rfl

/-- C4 (amended): for every input table containing the regime-label column, the
preparer drops exactly the rows whose regime label is missing or strips to the
empty string; the feature matrix lists the feature cells of every surviving
row — rows with missing feature values are not excluded, the missing values
pass through — parallel to the string label vector. -/
theorem regime_prep_filters_regime_only (df : DataFrame) (feature_cols : List String)
    (hcol : COL_REGIME ∈ df.columns)
    (hne : df.rows.filter regimeLabelOk ≠ []) :
    prepare_regime_data df feature_cols
      = Except.ok
          ((df.rows.filter regimeLabelOk).map (fun r => feature_cols.map (fun c => getCell r c)),
           (df.rows.filter regimeLabelOk).map (fun r => cellToStr (getCell r COL_REGIME))) := by
  have hff : (df.rows.filter (fun r => !(getCell r COL_REGIME == Cell.missing))).filter
      (fun r => !(pyStrip (cellToStr (getCell r COL_REGIME)) == ""))
      = df.rows.filter regimeLabelOk :=
    filter_filter_bool _ _ _
  have hne2 : (df.rows.filter regimeLabelOk).isEmpty = false := by
    cases hf : df.rows.filter regimeLabelOk with
    | nil => exact absurd hf hne
    | cons a t => rfl
  unfold prepare_regime_data
  rw [if_pos hcol]
  simp only [hff, hne2]
  simp

/-- Witness for the amended C4 at the one-row table with a missing feature. -/
theorem regime_prep_filters_regime_only_witness :
    prepare_regime_data dfMissingFeature ["f"]
      = Except.ok ([[Cell.missing]], ["TrendingUp"]) := by
  have h := regime_prep_filters_regime_only dfMissingFeature ["f"] (by decide) (by decide)
  exact h.trans (by rfl)

theorem filterMap_eq_nil_of_none {α β : Type} (f : α → Option β) (l : List α)
    (h : ∀ a ∈ l, f a = none) : l.filterMap f = [] := by
  induction l with
  | nil => rfl
  | cons a t ih =>
    rw [List.filterMap_cons, h a (by simp)]
    exact ih (fun x hx => h x (by simp [hx]))

/-- C5 fails as stated: the configured minimum-samples-per-strategy value never
reaches the preparer, which always applies the module constant 50. Under the
override M = 51, a strategy partition with exactly M - 1 = 50 qualifying rows
is included in the prepared mapping, not excluded. -/
theorem edge_threshold_override_ignored_cex :
    prepare_edge_data dfFifty ["f"] = Except.ok psFifty
    ∧ ∃ e ∈ psFifty, e.1 = "A" ∧ e.2.2.length = 51 - 1 := by
  refine ⟨by rfl, ?_⟩
  exact ⟨("A", (List.replicate 50 [Cell.num 0], List.replicate 50 1)),
         by simp [psFifty], rfl, by decide⟩

/-- C5 (amended): the preparer threshold is the fixed module constant
`MIN_SAMPLES_PER_STRATEGY = 50`, whatever minimum-per-strategy value is
configured (the override reaches only edge evaluation): for every table with
the required columns and at least one complete row, a strategy is included in
the prepared mapping iff its name occurs among the qualifying rows and its
partition holds at least 50 of them — so a 49-row partition is excluded and a
50-row partition included. -/
theorem edge_threshold_fixed_at_fifty (df : DataFrame) (fc : List String) (s : String)
    (h1 : COL_STRATEGY ∈ df.columns) (h2 : COL_PROFIT ∈ df.columns)
    (hne : df.rows.filter (edgeRowOk fc) ≠ []) :
    MIN_SAMPLES_PER_STRATEGY = 50
    ∧ ∀ ps, prepare_edge_data df fc = Except.ok ps →
        ((∃ e ∈ ps, e.1 = s) ↔
          s ∈ strategyKeys (df.rows.filter (edgeRowOk fc))
            ∧ MIN_SAMPLES_PER_STRATEGY
                ≤ (groupRows (df.rows.filter (edgeRowOk fc)) s).length) := by
  refine ⟨rfl, ?_⟩
  intro ps hps
  have hne2 : (df.rows.filter (edgeRowOk fc)).isEmpty = false := by
    cases hf : df.rows.filter (edgeRowOk fc) with
    | nil => exact absurd hf hne
    | cons a t => rfl
  unfold prepare_edge_data at hps
  rw [if_pos h1, if_pos h2] at hps
  simp only [hne2, Bool.false_eq_true, if_false] at hps
  injection hps with hps2
  subst hps2
  constructor
  · rintro ⟨e, he, hes⟩
    rw [List.mem_filterMap] at he
    obtain ⟨a, ha, hfa⟩ := he
    by_cases hlen :
        (groupRows (df.rows.filter (edgeRowOk fc)) a).length < MIN_SAMPLES_PER_STRATEGY
    · rw [if_pos hlen] at hfa
      cases hfa
    · rw [if_neg hlen] at hfa
      injection hfa with hfa2
      rw [← hfa2] at hes
      simp only at hes
      subst hes
      exact ⟨ha, not_lt.mp hlen⟩
  · rintro ⟨hmem, hlen⟩
    refine ⟨(s, ((groupRows (df.rows.filter (edgeRowOk fc)) s).map
                   (fun r => fc.map (fun c => getCell r c)),
                 (groupRows (df.rows.filter (edgeRowOk fc)) s).map labelWin)),
            ?_, rfl⟩
    rw [List.mem_filterMap]
    exact ⟨s, hmem, by rw [if_neg (not_lt.mpr hlen)]⟩

/-- Witness for the amended C5 at the 50-row single-strategy table. -/
theorem edge_threshold_fixed_at_fifty_witness :
    MIN_SAMPLES_PER_STRATEGY = 50 ∧ ∃ e ∈ psFifty, e.1 = "A" := by
  have h := edge_threshold_fixed_at_fifty dfFifty ["f"] "A" (by decide) (by decide) (by decide)
  exact ⟨h.1, (h.2 psFifty (by rfl)).mpr ⟨by decide, by decide⟩⟩

/-- C6: when no strategy partition reaches the minimum-sample threshold, the
edge preparer returns an empty mapping rather than raising, edge evaluation
yields None (absent, not zero), and the composite score equals the regime
accuracy alone; the run proceeds. -/
theorem edge_no_qualifying_partition_not_fatal (df : DataFrame) (fc : List String)
    (skE : EdgeOracle) (r : ℚ) (m : ℕ)
    (h1 : COL_STRATEGY ∈ df.columns) (h2 : COL_PROFIT ∈ df.columns)
    (hne : df.rows.filter (edgeRowOk fc) ≠ [])
    (hsmall : ∀ s ∈ strategyKeys (df.rows.filter (edgeRowOk fc)),
        (groupRows (df.rows.filter (edgeRowOk fc)) s).length < MIN_SAMPLES_PER_STRATEGY) :
    prepare_edge_data df fc = Except.ok []
    ∧ evaluate_edge_models skE [] m = none
    ∧ compositeScore r none = r := by
  have hne2 : (df.rows.filter (edgeRowOk fc)).isEmpty = false := by
    cases hf : df.rows.filter (edgeRowOk fc) with
    | nil => exact absurd hf hne
    | cons a t => rfl
  refine ⟨?_, rfl, rfl⟩
  unfold prepare_edge_data
  rw [if_pos h1, if_pos h2]
  simp only [hne2, Bool.false_eq_true, if_false]
  congr 1
  exact filterMap_eq_nil_of_none _ _ (fun a ha => by rw [if_pos (hsmall a ha)])

/-- Witness for C6 at a one-row table: the single partition has 1 < 50 rows. -/
theorem edge_no_qualifying_partition_not_fatal_witness :
    prepare_edge_data dfOneRow ["f"] = Except.ok []
    ∧ evaluate_edge_models skE0 [] 50 = none
    ∧ compositeScore (1/2) none = 1/2 :=
  edge_no_qualifying_partition_not_fatal dfOneRow ["f"] skE0 (1/2) 50
    (by decide) (by decide) (by decide) (by decide)

/-- C7: regime evaluation fails iff the total sample count is below the
configured minimum, whose default is 200; with enough samples it returns the
held-out accuracy of the pipeline invoked with a 20% test split
(`test_size = 0.2`), the fixed seed `random_state = 42`, and label
stratification. -/
theorem regime_eval_minimum_gate (sk : RegimeOracle) (X : List (List Cell))
    (y : List String) (m : ℕ) :
    MIN_TOTAL_SAMPLES = 200
    ∧ ((∃ e, evaluate_regime_model sk X y m = Except.error e) ↔ X.length < m)
    ∧ (m ≤ X.length →
        evaluate_regime_model sk X y m = Except.ok (sk X y (2/10) 42 true)) := by
  refine ⟨rfl, ?_, ?_⟩
  · unfold evaluate_regime_model
    by_cases h : X.length < m
    · simp [h]
    · simp [h]
  · intro h
    unfold evaluate_regime_model
    rw [if_neg (not_lt.mpr h)]

/-- Witness for C7 with one sample and a minimum of one. -/
theorem regime_eval_minimum_gate_witness :
    evaluate_regime_model skR0 [[Cell.num 0]] ["TrendingUp"] 1 = Except.ok 0 := by
  have h := regime_eval_minimum_gate skR0 [[Cell.num 0]] ["TrendingUp"] 1
  exact h.2.2 (by decide)

theorem edge_foldlM_error (fit : EdgeFit) : ∀ (ps : PerStrategy)
    (acc : List (String × (List ℚ × ℚ))),
    (∃ p ∈ ps, ∃ e, fit p.2.1 p.2.2 = Except.error e) →
    ∃ e, ps.foldlM
        (fun acc p => do
          let c ← fit p.2.1 p.2.2
          pure (acc ++ [(p.1, c)])) acc = Except.error e := by
  intro ps
  induction ps with
  | nil =>
    intro acc h
    simp at h
  | cons a t ih =>
    intro acc h
    cases hfa : fit a.2.1 a.2.2 with
    | error e =>
      refine ⟨e, ?_⟩
      rw [List.foldlM_cons, hfa]
      rfl
    | ok c =>
      obtain ⟨p, hp, e, hpe⟩ := h
      rcases List.mem_cons.mp hp with rfl | hpt
      · rw [hfa] at hpe
        cases hpe
      · obtain ⟨e', he'⟩ := ih (acc ++ [(a.1, c)]) ⟨p, hpt, e, hpe⟩
        refine ⟨e', ?_⟩
        rw [List.foldlM_cons, hfa]
        exact he'

theorem edge_foldlM_ok (fit : EdgeFit) : ∀ (ps : PerStrategy)
    (acc : List (String × (List ℚ × ℚ))),
    (∀ p ∈ ps, ∃ c, fit p.2.1 p.2.2 = Except.ok c) →
    ∃ l, ps.foldlM
        (fun acc p => do
          let c ← fit p.2.1 p.2.2
          pure (acc ++ [(p.1, c)])) acc = Except.ok (acc ++ l)
      ∧ l.map Prod.fst = ps.map Prod.fst := by
  intro ps
  induction ps with
  | nil =>
    intro acc h
    refine ⟨[], ?_, rfl⟩
    show pure acc = Except.ok (acc ++ [])
    rw [List.append_nil]
    rfl
  | cons a t ih =>
    intro acc h
    obtain ⟨c, hc⟩ := h a (by simp)
    obtain ⟨l, hl, hmap⟩ := ih (acc ++ [(a.1, c)]) (fun p hp => h p (by simp [hp]))
    refine ⟨(a.1, c) :: l, ?_, by simp [hmap]⟩
    have hassoc : (acc ++ [(a.1, c)]) ++ l = acc ++ (a.1, c) :: l := by simp
    rw [List.foldlM_cons, hc]
    show t.foldlM _ (acc ++ [(a.1, c)]) = Except.ok (acc ++ (a.1, c) :: l)
    rw [hl, hassoc]

/-- C8 fails as stated: with two qualifying 50-row strategies A and B and a fit
that fails to converge on the data of A, edge training raises and nothing is
produced — B is not published either; the strategy fit error aborts the call. -/
theorem edge_fit_failure_aborts_run_cex :
    train_edge_models fitFailA psTwo = Except.error "fit failed to converge"
    ∧ ∀ m : EdgeModel, train_edge_models fitFailA psTwo ≠ Except.ok m := by
  have h : train_edge_models fitFailA psTwo
      = Except.error "fit failed to converge" := by rfl
  refine ⟨h, ?_⟩
  intro m hm
  rw [h] at hm
  cases hm

/-- C8 (amended): there is no per-strategy isolation — the per-strategy fitting
loop has no exception handler, so if fitting the classifier of any strategy
fails the whole edge-training call aborts with that error and no edge artifact
is produced for any strategy; only when every fit succeeds does an artifact
result, and it then lists every qualifying strategy. -/
theorem edge_fit_failure_aborts_run (fit : EdgeFit) (ps : PerStrategy) :
    ((∃ p ∈ ps, ∃ e, fit p.2.1 p.2.2 = Except.error e) →
        ∃ e, train_edge_models fit ps = Except.error e)
    ∧ ((∀ p ∈ ps, ∃ c, fit p.2.1 p.2.2 = Except.ok c) →
        ∃ m, train_edge_models fit ps = Except.ok m
          ∧ m.strategies.map Prod.fst = ps.map Prod.fst) := by
  constructor
  · intro h
    obtain ⟨e, he⟩ := edge_foldlM_error fit ps [] h
    refine ⟨e, ?_⟩
    unfold train_edge_models
    rw [he]
    rfl
  · intro h
    obtain ⟨l, hl, hmap⟩ := edge_foldlM_ok fit ps [] h
    refine ⟨{ model_type := "per_strategy_logistic_regression"
              feature_names := []
              strategies := l }, ?_, by simpa using hmap⟩
    unfold train_edge_models
    rw [hl]
    rfl

/-- Witness for the amended C8: the failing fit aborts on `psTwo`, and an
always-converging fit publishes both strategies. -/
theorem edge_fit_failure_aborts_run_witness :
    (∃ e, train_edge_models fitFailA psTwo = Except.error e)
    ∧ ∃ m, train_edge_models fitE0 psTwo = Except.ok m
        ∧ m.strategies.map Prod.fst = ["A", "B"] := by
  constructor
  · exact (edge_fit_failure_aborts_run fitFailA psTwo).1
      ⟨("A", (List.replicate 50 [Cell.num 1], List.replicate 50 1)),
       by simp [psTwo], "fit failed to converge", by rfl⟩
  · obtain ⟨m, hm, hmap⟩ := (edge_fit_failure_aborts_run fitE0 psTwo).2
      (fun p hp => ⟨([1], 0), rfl⟩)
    refine ⟨m, hm, ?_⟩
    rw [hmap]
    rfl

/-- C9: a run on a table lacking the regime-label column aborts fatally before
any artifact or metrics file is written — the filesystem it reports back is
exactly the filesystem it started from. -/
theorem missing_regime_column_aborts_unchanged (args : Args) (ts : String)
    (df : DataFrame) (skR : RegimeOracle) (skE : EdgeOracle)
    (fitR : RegimeFit) (fitE : EdgeFit) (fs : FS)
    (h : COL_REGIME ∉ df.columns) :
    (mainRun args ts df skR skE fitR fitE fs).1 = fs
    ∧ (mainRun args ts df skR skE fitR fitE fs).2.isSome = true := by
  unfold mainRun
  cases hinf : infer_feature_columns df with
  | error e => exact ⟨rfl, rfl⟩
  | ok fc =>
    have hprep : prepare_regime_data df fc
        = Except.error "Regime column not found in logs." := by
      unfold prepare_regime_data
      rw [if_neg h]
    dsimp only
    rw [hprep]
    exact ⟨rfl, rfl⟩

/-- Witness for C9 at a concrete three-column table without Regime, on an empty
artifact directory. -/
theorem missing_regime_column_aborts_unchanged_witness :
    (mainRun ⟨"Data/ML", false, 200, 50⟩ "20250101_000000" dfNoRegime
        skR0 skE0 fitR0 fitE0 []).1 = ([] : FS)
    ∧ (mainRun ⟨"Data/ML", false, 200, 50⟩ "20250101_000000" dfNoRegime
        skR0 skE0 fitR0 fitE0 []).2.isSome = true :=
  missing_regime_column_aborts_unchanged ⟨"Data/ML", false, 200, 50⟩
    "20250101_000000" dfNoRegime skR0 skE0 fitR0 fitE0 [] (by decide)

/-- C10: when the metrics file exists but cannot be read or parsed as JSON,
loading the prior metrics yields None and the gate approves unconditionally,
exactly as if no prior metrics record existed. -/
theorem corrupt_metrics_gate_approves (fs : FS) (path : String) (s : ℚ)
    (force : Bool) (h : fsGet fs path = some FileData.corrupt) :
    load_metrics fs path = none
    ∧ should_update_models s (load_metrics fs path) force = true
    ∧ should_update_models s (load_metrics fs path) force
        = should_update_models s none force := by
  have h1 : load_metrics fs path = none := by
    unfold load_metrics
    rw [h]
  refine ⟨h1, ?_, by rw [h1]⟩
  rw [h1]
  cases force <;> rfl

/-- Witness for C10 on a one-file filesystem holding a corrupt metrics file. -/
theorem corrupt_metrics_gate_approves_witness :
    load_metrics [("Data/ML/metrics.json", FileData.corrupt)] "Data/ML/metrics.json" = none
    ∧ should_update_models (1/2)
        (load_metrics [("Data/ML/metrics.json", FileData.corrupt)] "Data/ML/metrics.json")
        false = true
    ∧ should_update_models (1/2)
        (load_metrics [("Data/ML/metrics.json", FileData.corrupt)] "Data/ML/metrics.json")
        false
        = should_update_models (1/2) none false :=
  corrupt_metrics_gate_approves [("Data/ML/metrics.json", FileData.corrupt)]
    "Data/ML/metrics.json" (1/2) false (by rfl)

theorem find?_fsRemove_ne (fs : FS) (p q : String) (h : q ≠ p) :
    (fsRemove fs p).find? (fun e => e.1 == q) = fs.find? (fun e => e.1 == q) := by
  unfold fsRemove
  induction fs with
  | nil => rfl
  | cons a t ih =>
    rw [List.filter_cons]
    by_cases hap : a.1 = p
    · have h1 : (!(a.1 == p)) = false := by simp [hap]
      rw [h1]
      simp only [Bool.false_eq_true, if_false]
      rw [ih]
      exact (List.find?_cons_of_neg t
        (by simp only [hap, beq_iff_eq]; exact fun hp => h hp.symm)).symm
    · have h1 : (!(a.1 == p)) = true := by simp [hap]
      rw [h1]
      simp only [if_true]
      by_cases haq : a.1 = q
      · rw [List.find?_cons_of_pos _ (by simp [haq]),
            List.find?_cons_of_pos _ (by simp [haq])]
      · rw [List.find?_cons_of_neg _ (by simp [haq]),
            List.find?_cons_of_neg _ (by simp [haq])]
        exact ih

theorem find?_fsRemove_self (fs : FS) (p : String) :
    (fsRemove fs p).find? (fun e => e.1 == p) = none := by
  unfold fsRemove
  induction fs with
  | nil => rfl
  | cons a t ih =>
    rw [List.filter_cons]
    by_cases hap : a.1 = p
    · have h1 : (!(a.1 == p)) = false := by simp [hap]
      rw [h1]
      simp only [Bool.false_eq_true, if_false]
      exact ih
    · have h1 : (!(a.1 == p)) = true := by simp [hap]
      rw [h1]
      simp only [if_true]
      rw [List.find?_cons_of_neg _ (by simp [hap])]
      exact ih

theorem fsGet_fsSet (fs : FS) (p q : String) (c : FileData) :
    fsGet (fsSet fs p c) q = if q = p then some c else fsGet fs q := by
  by_cases h : q = p
  · subst h
    rw [if_pos rfl]
    show ((( q, c) :: fsRemove fs q).find? (fun e => e.1 == q)).map (fun e => e.2) = some c
    rw [List.find?_cons_of_pos _ (by simp)]
    rfl
  · rw [if_neg h]
    show (((p, c) :: fsRemove fs p).find? (fun e => e.1 == q)).map (fun e => e.2)
        = fsGet fs q
    rw [List.find?_cons_of_neg _ (by simp; exact fun hp => h hp.symm),
        find?_fsRemove_ne fs p q h]
    rfl

theorem fsGet_fsRemove (fs : FS) (p q : String) :
    fsGet (fsRemove fs p) q = if q = p then none else fsGet fs q := by
  by_cases h : q = p
  · subst h
    rw [if_pos rfl]
    show ((fsRemove fs q).find? (fun e => e.1 == q)).map (fun e => e.2) = none
    rw [find?_fsRemove_self]
    rfl
  · rw [if_neg h]
    show ((fsRemove fs p).find? (fun e => e.1 == q)).map (fun e => e.2) = fsGet fs q
    rw [find?_fsRemove_ne fs p q h]
    rfl

theorem os_replace_src (fs : FS) (src dst : String) (c : FileData)
    (h : fsGet fs src = some c) (hne : dst ≠ src) :
    fsGet (os_replace fs src dst) src = none := by
  unfold os_replace
  rw [h, fsGet_fsSet, if_neg (fun hx => hne hx.symm), fsGet_fsRemove, if_pos rfl]

theorem os_replace_dst (fs : FS) (src dst : String) (c : FileData)
    (h : fsGet fs src = some c) :
    fsGet (os_replace fs src dst) dst = some c := by
  unfold os_replace
  rw [h, fsGet_fsSet, if_pos rfl]

theorem os_replace_other (fs : FS) (src dst q : String)
    (h1 : q ≠ src) (h2 : q ≠ dst) :
    fsGet (os_replace fs src dst) q = fsGet fs q := by
  unfold os_replace
  cases hsrc : fsGet fs src with
  | none => rfl
  | some c => rw [fsGet_fsSet, if_neg h2, fsGet_fsRemove, if_neg h1]

theorem archiveStep_preserve (adir ts : String) (acc : FS) (p q : String)
    (h1 : q ≠ p) (h2 : q ≠ archiveName adir ts p) :
    fsGet (archiveStep adir ts acc p) q = fsGet acc q := by
  unfold archiveStep
  by_cases hex : fsExists acc p = true
  · rw [if_pos hex]
    exact os_replace_other acc p _ q h1 h2
  · rw [if_neg hex]

theorem archiveStep_moved (adir ts : String) (acc : FS) (p : String) (c : FileData)
    (hc : fsGet acc p = some c) (hne : archiveName adir ts p ≠ p) :
    fsGet (archiveStep adir ts acc p) p = none
    ∧ fsGet (archiveStep adir ts acc p) (archiveName adir ts p) = some c := by
  unfold archiveStep
  have hex : fsExists acc p = true := by
    unfold fsExists
    rw [hc]
    rfl
  rw [if_pos hex]
  exact ⟨os_replace_src acc p _ c hc hne, os_replace_dst acc p _ c hc⟩

theorem archiveStep_skip (adir ts : String) (acc : FS) (p : String)
    (h : fsGet acc p = none) :
    archiveStep adir ts acc p = acc := by
  unfold archiveStep
  have hex : fsExists acc p = false := by
    unfold fsExists
    rw [h]
    rfl
  rw [hex]
  simp

/-- C3: on an approved promotion over the standard path layout (the three
current files and their three archive destinations pairwise distinct), each
previously-current file that exists is moved, not copied: after the archiving
pass it is gone from its original path and sits at the archive path carrying
the shared run-timestamp prefix with content identical to its pre-promotion
content; a file that does not yet exist is skipped without error, leaving its
archive destination untouched; and since publication writes only after the
archiving pass completes, the final filesystem still holds every archived
pre-promotion content while the original paths carry the newly published
artifacts. -/
theorem archiver_moves_renames_preserves (ml_dir ts : String) (fs : FS)
    (regimeA : RegimeModel) (edgeA : EdgeModel) (metrics : MetricsDict) :
    let rp := regimeModelPath ml_dir
    let ep := edgeModelPath ml_dir
    let mp := metricsPath ml_dir
    let adir := joinPath ml_dir "archive"
    let trp := archiveName adir ts rp
    let tep := archiveName adir ts ep
    let tmp := archiveName adir ts mp
    let fs1 := archive_existing_models [rp, ep, mp] adir ts fs
    let final := publishModels ml_dir ts regimeA edgeA metrics fs
    rp ≠ ep → rp ≠ mp → ep ≠ mp →
    rp ≠ trp → rp ≠ tep → rp ≠ tmp →
    ep ≠ trp → ep ≠ tep → ep ≠ tmp →
    mp ≠ trp → mp ≠ tep → mp ≠ tmp →
    trp ≠ tep → trp ≠ tmp → tep ≠ tmp →
    ((∀ c, fsGet fs rp = some c →
        fsGet fs1 rp = none ∧ fsGet fs1 trp = some c ∧ fsGet final trp = some c)
     ∧ (∀ c, fsGet fs ep = some c →
        fsGet fs1 ep = none ∧ fsGet fs1 tep = some c ∧ fsGet final tep = some c)
     ∧ (∀ c, fsGet fs mp = some c →
        fsGet fs1 mp = none ∧ fsGet fs1 tmp = some c ∧ fsGet final tmp = some c)
     ∧ (fsGet fs rp = none → fsGet fs1 trp = fsGet fs trp)
     ∧ (fsGet fs ep = none → fsGet fs1 tep = fsGet fs tep)
     ∧ (fsGet fs mp = none → fsGet fs1 tmp = fsGet fs tmp)
     ∧ fsGet final rp = some (FileData.regimeArtifact regimeA)
     ∧ fsGet final ep = some (FileData.edgeArtifact edgeA)
     ∧ fsGet final mp = some (FileData.jsonDict metrics)) := by
  intro rp ep mp adir trp tep tmp fs1 final
  intro hre hrm hem hrtr hrte hrtm hetr hete hetm hmtr hmte hmtm htrte htrtm htetm
  have hfs1 : fs1 = archiveStep adir ts
      (archiveStep adir ts (archiveStep adir ts fs rp) ep) mp := rfl
  have hfinal : final = fsSet (fsSet (fsSet fs1 rp (FileData.regimeArtifact regimeA))
      ep (FileData.edgeArtifact edgeA)) mp (FileData.jsonDict metrics) := rfl
  refine ⟨?_, ?_, ?_, ?_, ?_, ?_, ?_, ?_, ?_⟩
  · intro c hc
    obtain ⟨hm1, hm2⟩ := archiveStep_moved adir ts fs rp c hc (Ne.symm hrtr)
    have e1 : fsGet fs1 rp = none := by
      rw [hfs1, archiveStep_preserve adir ts _ mp rp hrm hrtm,
          archiveStep_preserve adir ts _ ep rp hre hrte]
      exact hm1
    have e2 : fsGet fs1 trp = some c := by
      rw [hfs1, archiveStep_preserve adir ts _ mp trp (Ne.symm hmtr) htrtm,
          archiveStep_preserve adir ts _ ep trp (Ne.symm hetr) htrte]
      exact hm2
    refine ⟨e1, e2, ?_⟩
    rw [hfinal, fsGet_fsSet, if_neg (Ne.symm hmtr), fsGet_fsSet,
        if_neg (Ne.symm hetr), fsGet_fsSet, if_neg (Ne.symm hrtr)]
    exact e2
  · intro c hc
    have hcc : fsGet (archiveStep adir ts fs rp) ep = some c := by
      rw [archiveStep_preserve adir ts fs rp ep (Ne.symm hre) hetr]
      exact hc
    obtain ⟨hm1, hm2⟩ := archiveStep_moved adir ts _ ep c hcc (Ne.symm hete)
    have e1 : fsGet fs1 ep = none := by
      rw [hfs1, archiveStep_preserve adir ts _ mp ep hem hetm]
      exact hm1
    have e2 : fsGet fs1 tep = some c := by
      rw [hfs1, archiveStep_preserve adir ts _ mp tep (Ne.symm hmte) htetm]
      exact hm2
    refine ⟨e1, e2, ?_⟩
    rw [hfinal, fsGet_fsSet, if_neg (Ne.symm hmte), fsGet_fsSet,
        if_neg (Ne.symm hete), fsGet_fsSet, if_neg (Ne.symm hrte)]
    exact e2
  · intro c hc
    have hcc : fsGet (archiveStep adir ts
        (archiveStep adir ts fs rp) ep) mp = some c := by
      rw [archiveStep_preserve adir ts _ ep mp (Ne.symm hem) hmte,
          archiveStep_preserve adir ts fs rp mp (Ne.symm hrm) hmtr]
      exact hc
    obtain ⟨hm1, hm2⟩ := archiveStep_moved adir ts _ mp c hcc (Ne.symm hmtm)
    have e1 : fsGet fs1 mp = none := by
      rw [hfs1]
      exact hm1
    have e2 : fsGet fs1 tmp = some c := by
      rw [hfs1]
      exact hm2
    refine ⟨e1, e2, ?_⟩
    rw [hfinal, fsGet_fsSet, if_neg (Ne.symm hmtm), fsGet_fsSet,
        if_neg (Ne.symm hetm), fsGet_fsSet, if_neg (Ne.symm hrtm)]
    exact e2
  · intro hc
    rw [hfs1, archiveStep_skip adir ts fs rp hc,
        archiveStep_preserve adir ts _ mp trp (Ne.symm hmtr) htrtm,
        archiveStep_preserve adir ts fs ep trp (Ne.symm hetr) htrte]
  · intro hc
    have hc1 : fsGet (archiveStep adir ts fs rp) ep = none := by
      rw [archiveStep_preserve adir ts fs rp ep (Ne.symm hre) hetr]
      exact hc
    rw [hfs1, archiveStep_preserve adir ts _ mp tep (Ne.symm hmte) htetm,
        archiveStep_skip adir ts _ ep hc1,
        archiveStep_preserve adir ts fs rp tep (Ne.symm hrte) (Ne.symm htrte)]
  · intro hc
    have hc2 : fsGet (archiveStep adir ts
        (archiveStep adir ts fs rp) ep) mp = none := by
      rw [archiveStep_preserve adir ts _ ep mp (Ne.symm hem) hmte,
          archiveStep_preserve adir ts fs rp mp (Ne.symm hrm) hmtr]
      exact hc
    rw [hfs1, archiveStep_skip adir ts _ mp hc2,
        archiveStep_preserve adir ts _ ep tmp (Ne.symm hetm) (Ne.symm htetm),
        archiveStep_preserve adir ts fs rp tmp (Ne.symm hrtm) (Ne.symm htrtm)]
  · rw [hfinal, fsGet_fsSet, if_neg hrm, fsGet_fsSet, if_neg hre,
        fsGet_fsSet, if_pos rfl]
  · rw [hfinal, fsGet_fsSet, if_neg hem, fsGet_fsSet, if_pos rfl]
  · rw [hfinal, fsGet_fsSet, if_pos rfl]

/-- Witness for C3: publishing over a directory currently holding only a
metrics file moves that file, byte-identical, to the timestamped archive path
(where it still sits after publication), leaves the archive destination of the
absent regime artifact untouched, and writes the new metrics at the current
path. -/
theorem archiver_moves_renames_preserves_witness :
    let fs1 := archive_existing_models
        [regimeModelPath "Data/ML", edgeModelPath "Data/ML", metricsPath "Data/ML"]
        (joinPath "Data/ML" "archive") "20250101_000000" fsPre
    let final := publishModels "Data/ML" "20250101_000000" regimeW edgeW
        [("composite_score", 3/4)] fsPre
    let tmp := archiveName (joinPath "Data/ML" "archive") "20250101_000000"
        (metricsPath "Data/ML")
    let trp := archiveName (joinPath "Data/ML" "archive") "20250101_000000"
        (regimeModelPath "Data/ML")
    fsGet fs1 (metricsPath "Data/ML") = none
    ∧ fsGet fs1 tmp = some (FileData.jsonDict [("composite_score", 1/2)])
    ∧ fsGet final tmp = some (FileData.jsonDict [("composite_score", 1/2)])
    ∧ fsGet fs1 trp = fsGet fsPre trp
    ∧ fsGet final (metricsPath "Data/ML")
        = some (FileData.jsonDict [("composite_score", 3/4)]) := by
  intro fs1 final tmp trp
  have h := archiver_moves_renames_preserves "Data/ML" "20250101_000000" fsPre
      regimeW edgeW [("composite_score", 3/4)]
      (by decide) (by decide) (by decide) (by decide) (by decide) (by decide)
      (by decide) (by decide) (by decide) (by decide) (by decide) (by decide)
      (by decide) (by decide) (by decide)
  obtain ⟨hmoveR, hmoveE, hmoveM, hskipR, hskipE, hskipM, hnewR, hnewE, hnewM⟩ := h
  exact ⟨(hmoveM (FileData.jsonDict [("composite_score", 1/2)]) (by rfl)).1,
         (hmoveM (FileData.jsonDict [("composite_score", 1/2)]) (by rfl)).2.1,
         (hmoveM (FileData.jsonDict [("composite_score", 1/2)]) (by rfl)).2.2,
         hskipR (by rfl), hnewM⟩
